import Mathlib

/-!
Shallow embedding of the context-menu builder in
src/scenes/platform/src/webviewInjection/Browser/ContextMenu.js.

The builder turns an interaction context (the Electron context-menu params),
a feature config and an optional spellchecker into an ordered menu template.
JavaScript member access on a null object throws a TypeError; the embedding
makes this explicit by returning an Except value.  JavaScript truthiness of
optional strings (null and the empty string are falsy) is modelled by
truthyStr.
-/

/-- Claim-relevant JavaScript runtime failure: a TypeError raised by member
access on null or undefined. -/
inductive JSError where
  | typeError (msg : String)
deriving DecidableEq, Repr

/-- Opaque action references: each click closure of the source is one
constructor, parameterised by the data it captures. -/
inductive ActionRef where
  | replaceMisspelling (s : String)
  | openExternal (url : String)
  | openExternalInBackground (url : String)
  | copyText (s : String)
  | addCustomWord (w : String)
  | copyCurrentPageUrl
  | openCurrentPageInBrowser
  | openSettings
  | inspectElement (x y : Int)
deriving DecidableEq, Repr

/-- A node of the menu template passed to Menu.buildFromTemplate. -/
inductive MenuNode where
  | item (label : String) (enabled : Bool) (click : Option ActionRef) (role : Option String)
  | submenu (label : String) (items : List MenuNode)
  | separator

/-- The editFlags object of the context-menu params. -/
structure EditFlags where
  canUndo : Bool
  canRedo : Bool
  canCut : Bool
  canCopy : Bool
  canPaste : Bool
  canSelectAll : Bool
deriving DecidableEq, Repr

/-- The context-menu params (interaction context) delivered with the event. -/
structure InteractionContext where
  isEditable : Bool
  misspelledWord : Option String
  selectionText : Option String
  linkURL : Option String
  editFlags : EditFlags
  x : Int
  y : Int

/-- One language entry of a SpellSuggestions value; the suggestions field may
itself be null. -/
structure LanguageSuggestions where
  language : String
  suggestions : Option (List String)

/-- Result of spellchecker.suggestions: primary and secondary are both
nullable. -/
structure SpellSuggestions where
  primary : Option LanguageSuggestions
  secondary : Option LanguageSuggestions

/-- The injected spellchecker capability. -/
structure Spellchecker where
  hasSpellchecker : Bool
  suggestions : String → SpellSuggestions

/-- The config merged over ContextMenu.defaultConfig. -/
structure FeatureConfig where
  copyCurrentPageUrlOption : Bool
  openCurrentPageInBrowserOption : Bool
deriving DecidableEq, Repr

/-- static get defaultConfig. -/
def defaultConfig : FeatureConfig :=
  { copyCurrentPageUrlOption := false, openCurrentPageInBrowserOption := false }

/-- JavaScript truthiness of a nullable string: null and the empty string are
falsy. -/
def truthyStr : Option String → Bool
  | none => false
  | some s => decide (s ≠ "")

/-- Reads a nullable string where the source has already established
truthiness; the default is never observable. -/
def strOrEmpty : Option String → String
  | none => ""
  | some s => s

/-- Name resolution (dictInfo[code] || \x7b\x7d).name || code.  The lookup
table itself lives outside this file (app/shared/dictionaries.js), so the
dictionary is a parameter; a missing entry or a falsy name falls back to the
raw language code. -/
def langLabel (dict : String → Option String) (code : String) : String :=
  match dict code with
  | none => code
  | some n => if n = "" then code else n

/-- One spelling-suggestion menu item. -/
def suggestionItem (s : String) : MenuNode :=
  .item s true (some (.replaceMisspelling s)) none

/-- The disabled placeholder emitted for an empty suggestion list. -/
def noSuggestionsItem : MenuNode :=
  .item "No Spelling Suggestions" false none none

/-- Body of _renderSuggestionMenuItems_ for an actual array argument: the
forEach/push accumulation over a non-empty list, the placeholder otherwise. -/
def renderSuggestionMenuItemsList (suggestions : List String) : List MenuNode :=
  if suggestions.length ≠ 0 then
    suggestions.foldl (fun acc s => acc ++ [suggestionItem s]) []
  else
    [noSuggestionsItem]

/-- _renderSuggestionMenuItems_ as called: reading length of a null argument
throws. -/
def renderSuggestionMenuItems : Option (List String) → Except JSError (List MenuNode)
  | none => .error (.typeError "Cannot read property length of null")
  | some l => .ok (renderSuggestionMenuItemsList l)

/-- suggestions.primary.suggestions || suggestions.secondary.suggestions || []
as evaluated by JavaScript in the branch where primary and secondary are not
both present: member access on a null object throws; an array (even empty) is
truthy. -/
def elseSuggList (primary secondary : Option LanguageSuggestions) :
    Except JSError (List String) :=
  match primary with
  | none => .error (.typeError "Cannot read property suggestions of null")
  | some p =>
    match p.suggestions with
    | some l => .ok l
    | none =>
      match secondary with
      | none => .error (.typeError "Cannot read property suggestions of null")
      | some q =>
        match q.suggestions with
        | some l => .ok l
        | none => .ok []

/-- The gate of the spelling section and of the add-to-dictionary item:
params.isEditable && params.misspelledWord && this.spellchecker &&
this.spellchecker.hasSpellchecker. -/
def spellGate (params : InteractionContext) (spellchecker : Option Spellchecker) : Bool :=
  params.isEditable && truthyStr params.misspelledWord &&
    (match spellchecker with
     | none => false
     | some s => s.hasSpellchecker)

/-- The spelling-suggestions block (lines 68 to 82), entered when the gate
holds: two language submenus when both primary and secondary are present,
otherwise the first non-null suggestion list flattened directly; a separator
closes the block. -/
def spellingSection (dict : String → Option String) (s : Spellchecker)
    (word : String) : Except JSError (List MenuNode) :=
  match (s.suggestions word).primary, (s.suggestions word).secondary with
  | some p, some q =>
    match renderSuggestionMenuItems p.suggestions with
    | .error e => .error e
    | .ok sub1 =>
      match renderSuggestionMenuItems q.suggestions with
      | .error e => .error e
      | .ok sub2 =>
        .ok [.submenu (langLabel dict p.language) sub1,
             .submenu (langLabel dict q.language) sub2,
             .separator]
  | pp, ss =>
    match elseSuggList pp ss with
    | .error e => .error e
    | .ok suggList => .ok (renderSuggestionMenuItemsList suggList ++ [.separator])

/-- The spelling section as contributed to the template: nothing when the
gate fails. -/
def spellingPart (dict : String → Option String) (spellchecker : Option Spellchecker)
    (params : InteractionContext) : Except JSError (List MenuNode) :=
  if spellGate params spellchecker then
    match spellchecker with
    | some s => spellingSection dict s (strOrEmpty params.misspelledWord)
    | none => .ok []
  else .ok []

def openLinkItem (url : String) : MenuNode :=
  .item "Open Link" true (some (.openExternal url)) none

def openLinkInBackgroundItem (url : String) : MenuNode :=
  .item "Open Link in Background" true (some (.openExternalInBackground url)) none

def copyLinkAddressItem (url : String) : MenuNode :=
  .item "Copy link Address" true (some (.copyText url)) none

/-- The URL block (lines 86 to 102); the background item is gated on the
darwin platform. -/
def urlSection (platformDarwin : Bool) (url : String) : List MenuNode :=
  [openLinkItem url] ++
  (if platformDarwin then [openLinkInBackgroundItem url] else []) ++
  [copyLinkAddressItem url, .separator]

def addToDictionaryItem (word : String) : MenuNode :=
  .item ("Add “" ++ (word ++ "” to Dictionary")) true (some (.addCustomWord word)) none

/-- selectionText.substr(0, 47) on code points. -/
def substrText (s : String) (start len : Nat) : String :=
  ((s.data.drop start).take len).asString

/-- displayText: truncate to 47 characters plus an ellipsis when the
selection has length at least 50. -/
def displayText (sel : String) : String :=
  if sel.length ≥ 50 then substrText sel 0 47 ++ "…" else sel

/-- Percent-encoding of one byte, uppercase hex. -/
def percentByte (b : Nat) : String :=
  let hexDigit : Nat → Char := fun n =>
    if n < 10 then Char.ofNat (48 + n) else Char.ofNat (55 + n)
  String.mk ['%', hexDigit (b / 16 % 16), hexDigit (b % 16)]

/-- UTF-8 bytes of one code point. -/
def utf8Bytes (c : Char) : List Nat :=
  let n := c.toNat
  if n < 128 then [n]
  else if n < 2048 then [192 + n / 64, 128 + n % 64]
  else if n < 65536 then [224 + n / 4096, 128 + n / 64 % 64, 128 + n % 64]
  else [240 + n / 262144, 128 + n / 4096 % 64, 128 + n / 64 % 64, 128 + n % 64]

/-- The characters encodeURIComponent leaves unescaped. -/
def uriUnreserved (c : Char) : Bool :=
  c.isAlpha || c.isDigit ||
    c = '-' || c = '_' || c = '.' || c = '!' || c = '~' || c = '*' ||
    c = Char.ofNat 39 || c = '(' || c = ')'

/-- encodeURIComponent: unreserved characters pass through, every other code
point is emitted as percent-encoded UTF-8 bytes. -/
def encodeURIComponent (s : String) : String :=
  s.data.foldl
    (fun acc c =>
      if uriUnreserved c then acc.push c
      else acc ++ (utf8Bytes c).foldl (fun a b => a ++ percentByte b) "")
    ""

/-- The search item: the label shows displayText, the click encodes the full
selection text. -/
def searchMenuItem (sel : String) : MenuNode :=
  .item ("Search Google for “" ++ (displayText sel ++ "”")) true
    (some (.openExternal ("https://google.com/search?q=" ++ encodeURIComponent sel)))
    none

/-- The lookup-and-search block (lines 105 to 121), entered when
selectionText is truthy. -/
def lookupSearchSection (spellchecker : Option Spellchecker)
    (params : InteractionContext) : List MenuNode :=
  (if spellGate params spellchecker then
    [addToDictionaryItem (strOrEmpty params.misspelledWord)]
   else []) ++
  [searchMenuItem (strOrEmpty params.selectionText), .separator]

/-- The undo and redo block (lines 134 to 138): both items always emitted
together, individually enabled. -/
def undoRedoSection (f : EditFlags) : List MenuNode :=
  if f.canUndo || f.canRedo then
    [.item "Undo" f.canUndo none (some "undo"),
     .item "Redo" f.canRedo none (some "redo"),
     .separator]
  else []

def cutItem : MenuNode := .item "Cut" true none (some "cut")
def copyItem : MenuNode := .item "Copy" true none (some "copy")
def pasteItem : MenuNode := .item "Paste" true none (some "paste")
def pasteMatchItem : MenuNode := .item "Paste and match style" true none (some "pasteandmatchstyle")
def selectAllItem : MenuNode := .item "Select all" true none (some "selectall")

/-- The textEditingMenu array (lines 141 to 147): candidates or null,
filtered. -/
def textEditingMenu (f : EditFlags) : List MenuNode :=
  [if f.canCut then some cutItem else none,
   if f.canCopy then some copyItem else none,
   if f.canPaste then some pasteItem else none,
   if f.canPaste then some pasteMatchItem else none,
   if f.canSelectAll then some selectAllItem else none].filterMap id

/-- Lines 148 to 151: the text-editing items plus a separator, only when the
filtered list is non-empty. -/
def textEditingSection (f : EditFlags) : List MenuNode :=
  if (textEditingMenu f).length ≠ 0 then textEditingMenu f ++ [.separator] else []

def copyCurrentUrlItem : MenuNode :=
  .item "Copy current URL" true (some .copyCurrentPageUrl) none

def openPageInBrowserItem : MenuNode :=
  .item "Open page in Browser" true (some .openCurrentPageInBrowser) none

/-- The current-page block (lines 154 to 171): each item gated by its config
flag, one shared separator when either was emitted. -/
def currentPageSection (config : FeatureConfig) : List MenuNode :=
  (if config.copyCurrentPageUrlOption then [copyCurrentUrlItem] else []) ++
  (if config.openCurrentPageInBrowserOption then [openPageInBrowserItem] else []) ++
  (if config.copyCurrentPageUrlOption || config.openCurrentPageInBrowserOption then
    [MenuNode.separator]
   else [])

def waveboxSettingsItem : MenuNode :=
  .item "Wavebox Settings" true (some .openSettings) none

def inspectItem (x y : Int) : MenuNode :=
  .item "Inspect" true (some (.inspectElement x y)) none

/-- The fixed application block (lines 174 to 181): always last, no trailing
separator. -/
def waveboxSection (params : InteractionContext) : List MenuNode :=
  [waveboxSettingsItem, inspectItem params.x params.y]

/-- launchMenu: the full template construction (lines 63 to 181).  The
platform flag, the language-name dictionary and the injected spellchecker are
explicit parameters; the result is the template handed to
Menu.buildFromTemplate, or the TypeError escaping the handler. -/
def launchMenu (platformDarwin : Bool) (dict : String → Option String)
    (spellchecker : Option Spellchecker) (config : FeatureConfig)
    (params : InteractionContext) : Except JSError (List MenuNode) :=
  match spellingPart dict spellchecker params with
  | .error e => .error e
  | .ok spelling =>
    .ok (spelling ++
      ((if truthyStr params.linkURL then
          urlSection platformDarwin (strOrEmpty params.linkURL)
        else []) ++
       ((if truthyStr params.selectionText then
           lookupSearchSection spellchecker params
         else []) ++
        (undoRedoSection params.editFlags ++
         (textEditingSection params.editFlags ++
          (currentPageSection config ++ waveboxSection params))))))

/-! ## Template predicates -/

/-- Is this node a separator. -/
def isSep : MenuNode → Bool
  | .separator => true
  | _ => false

/-- No two adjacent separator nodes. -/
def noDoubleSep : List MenuNode → Bool
  | a :: b :: rest => (!(isSep a && isSep b)) && noDoubleSep (b :: rest)
  | _ => true

/-- The first node, when present, is not a separator. -/
def headNotSep : List MenuNode → Bool
  | [] => true
  | a :: _ => !isSep a

/-- The final node, when present, is not a separator. -/
def lastNotSep : List MenuNode → Bool
  | [] => true
  | [a] => !isSep a
  | _ :: b :: rest => lastNotSep (b :: rest)

/-- The separator discipline of the spec: no double separators, none at
either end. -/
def sepInvariant (l : List MenuNode) : Bool :=
  noDoubleSep l && headNotSep l && lastNotSep l

/-- The action shapes produced by the URL section. -/
def linkActionShape : Option ActionRef → Bool
  | some (.openExternal _) => true
  | some (.openExternalInBackground _) => true
  | some (.copyText _) => true
  | _ => false

/-- Recognises the three link-section items by label and action shape. -/
def isLinkSectionNode : MenuNode → Bool
  | .item lb _ c _ =>
    ((lb == "Open Link") || (lb == "Open Link in Background") ||
     (lb == "Copy link Address")) && linkActionShape c
  | _ => false

/-- Recognises the two paste items of the text-editing section. -/
def isPasteNode : MenuNode → Bool
  | .item lb true none (some r) =>
    ((lb == "Paste") && (r == "paste")) ||
    ((lb == "Paste and match style") && (r == "pasteandmatchstyle"))
  | _ => false

/-- Shape of every node the spelling block can emit before its separator:
a language submenu, an enabled suggestion item, or the disabled
placeholder. -/
def spellNodeOK : MenuNode → Bool
  | .submenu _ _ => true
  | .item _ _ (some (.replaceMisspelling _)) _ => true
  | .item _ false none _ => true
  | _ => false

/-! ## Suggestion renderer lemmas -/

theorem foldl_push_eq_map {α β : Type} (f : α → β) (l : List α) :
    ∀ acc : List β, l.foldl (fun a s => a ++ [f s]) acc = acc ++ l.map f := by
  induction l with
  | nil => intro acc; simp
  | cons x xs ih => intro acc; simp [List.foldl_cons, ih]

theorem renderList_nil : renderSuggestionMenuItemsList [] = [noSuggestionsItem] := rfl

theorem renderList_eq_map (ss : List String) (h : ss ≠ []) :
    renderSuggestionMenuItemsList ss = ss.map suggestionItem := by
  unfold renderSuggestionMenuItemsList
  rw [if_pos (by simpa using h)]
  simpa using foldl_push_eq_map suggestionItem ss []

theorem renderList_ne_nil (ss : List String) : renderSuggestionMenuItemsList ss ≠ [] := by
  cases ss with
  | nil => simp [renderList_nil]
  | cons x xs =>
    rw [renderList_eq_map _ (by simp)]
    simp

theorem renderList_spellOK (ss : List String) :
    ∀ n ∈ renderSuggestionMenuItemsList ss, spellNodeOK n = true := by
  cases ss with
  | nil =>
    intro n hn
    rw [renderList_nil] at hn
    simp at hn
    subst hn
    rfl
  | cons x xs =>
    intro n hn
    rw [renderList_eq_map _ (by simp)] at hn
    obtain ⟨s, _, rfl⟩ := List.mem_map.mp hn
    rfl

/-! ## Separator bookkeeping -/

/-- A section contributes nothing, or a non-empty run of non-separator nodes
closed by exactly one separator. -/
def SectionShape (l : List MenuNode) : Prop :=
  l = [] ∨ ∃ m, m ≠ [] ∧ (∀ n ∈ m, isSep n = false) ∧ l = m ++ [MenuNode.separator]

/-- A non-empty suffix satisfying the whole separator discipline. -/
def GoodShape (l : List MenuNode) : Prop :=
  noDoubleSep l = true ∧ headNotSep l = true ∧ lastNotSep l = true ∧ l ≠ []

theorem noDoubleSep_cons_cons (a b : MenuNode) (l : List MenuNode) :
    noDoubleSep (a :: b :: l) = ((!(isSep a && isSep b)) && noDoubleSep (b :: l)) := rfl

theorem lastNotSep_cons_cons (a b : MenuNode) (l : List MenuNode) :
    lastNotSep (a :: b :: l) = lastNotSep (b :: l) := rfl

theorem lastNotSep_append (a b : List MenuNode) (hb : b ≠ []) :
    lastNotSep (a ++ b) = lastNotSep b := by
  induction a with
  | nil => rfl
  | cons x a ih =>
    cases hab : a ++ b with
    | nil => exact absurd (List.append_eq_nil.mp hab).2 hb
    | cons y l =>
      rw [List.cons_append, hab, lastNotSep_cons_cons, ← hab, ih]

theorem noDoubleSep_all (l : List MenuNode) (h : ∀ n ∈ l, isSep n = false) :
    noDoubleSep l = true := by
  induction l with
  | nil => rfl
  | cons x xs ih =>
    cases xs with
    | nil => rfl
    | cons y ys =>
      rw [noDoubleSep_cons_cons]
      have hx := h x (by simp)
      have hr := ih (fun n hn => h n (List.mem_cons_of_mem x hn))
      simp [hx, hr]

theorem lastNotSep_all (l : List MenuNode) (h : ∀ n ∈ l, isSep n = false) :
    lastNotSep l = true := by
  induction l with
  | nil => rfl
  | cons x xs ih =>
    cases xs with
    | nil => simpa [lastNotSep] using h x (by simp)
    | cons y ys =>
      rw [lastNotSep_cons_cons]
      exact ih (fun n hn => h n (List.mem_cons_of_mem x hn))

theorem goodShape_tail (l : List MenuNode) (hne : l ≠ [])
    (h : ∀ n ∈ l, isSep n = false) : GoodShape l := by
  refine ⟨noDoubleSep_all l h, ?_, lastNotSep_all l h, hne⟩
  cases l with
  | nil => rfl
  | cons x xs => simpa [headNotSep] using h x (by simp)

theorem noDoubleSep_sep_cons (b : List MenuNode) (hb1 : headNotSep b = true)
    (hb2 : noDoubleSep b = true) : noDoubleSep (MenuNode.separator :: b) = true := by
  cases b with
  | nil => rfl
  | cons y l =>
    rw [noDoubleSep_cons_cons]
    simp [headNotSep] at hb1
    rw [show isSep MenuNode.separator = true from rfl, hb1]
    simpa using hb2

theorem noDoubleSep_append_sep (m : List MenuNode) (hm : ∀ n ∈ m, isSep n = false)
    (b : List MenuNode) (hb1 : headNotSep b = true) (hb2 : noDoubleSep b = true) :
    noDoubleSep (m ++ MenuNode.separator :: b) = true := by
  induction m with
  | nil => exact noDoubleSep_sep_cons b hb1 hb2
  | cons x xs ih =>
    have hx := hm x (by simp)
    have ihh := ih (fun n hn => hm n (List.mem_cons_of_mem x hn))
    cases xs with
    | nil =>
      rw [List.cons_append, List.nil_append, noDoubleSep_cons_cons, hx]
      simpa [isSep] using noDoubleSep_sep_cons b hb1 hb2
    | cons z zs =>
      have hshape : (x :: z :: zs) ++ MenuNode.separator :: b
          = x :: z :: (zs ++ MenuNode.separator :: b) := rfl
      rw [hshape, noDoubleSep_cons_cons, hx]
      simpa using ihh

theorem goodShape_append (a b : List MenuNode) (ha : SectionShape a)
    (hb : GoodShape b) : GoodShape (a ++ b) := by
  obtain ⟨hb1, hb2, hb3, hb4⟩ := hb
  rcases ha with rfl | ⟨m, hm0, hmns, rfl⟩
  · exact ⟨hb1, hb2, hb3, hb4⟩
  · have hassoc : (m ++ [MenuNode.separator]) ++ b = m ++ MenuNode.separator :: b := by
      simp
    rw [hassoc]
    refine ⟨noDoubleSep_append_sep m hmns b hb2 hb1, ?_, ?_, by simp⟩
    · cases m with
      | nil => exact absurd rfl hm0
      | cons x xs => simpa [headNotSep] using hmns x (by simp)
    · rw [lastNotSep_append m (MenuNode.separator :: b) (by simp)]
      cases b with
      | nil => exact absurd rfl hb4
      | cons y ys => rw [lastNotSep_cons_cons]; exact hb3

theorem goodShape_sepInvariant (l : List MenuNode) (h : GoodShape l) :
    sepInvariant l = true := by
  obtain ⟨h1, h2, h3, _⟩ := h
  simp [sepInvariant, h1, h2, h3]

/-! ## Node classification -/

theorem spellNodeOK_class (n : MenuNode) (h : spellNodeOK n = true) :
    isSep n = false ∧ isLinkSectionNode n = false ∧ isPasteNode n = false := by
  cases n with
  | submenu lb items => exact ⟨rfl, rfl, rfl⟩
  | separator => simp [spellNodeOK] at h
  | item lb en cl rl =>
    cases en with
    | false =>
      cases cl with
      | none => exact ⟨rfl, by simp [isLinkSectionNode, linkActionShape], rfl⟩
      | some a =>
        cases a
        case replaceMisspelling s =>
          exact ⟨rfl, by simp [isLinkSectionNode, linkActionShape], rfl⟩
        all_goals simp [spellNodeOK] at h
    | true =>
      cases cl with
      | none => simp [spellNodeOK] at h
      | some a =>
        cases a
        case replaceMisspelling s =>
          exact ⟨rfl, by simp [isLinkSectionNode, linkActionShape], rfl⟩
        all_goals simp [spellNodeOK] at h

/-! ## Section characterisations -/

theorem spellingSection_ok (dict : String → Option String) (s : Spellchecker)
    (w : String) (S : List MenuNode) (h : spellingSection dict s w = .ok S) :
    ∃ m, m ≠ [] ∧ (∀ n ∈ m, spellNodeOK n = true) ∧ S = m ++ [MenuNode.separator] := by
  unfold spellingSection at h
  split at h
  · split at h
    · simp at h
    · split at h
      · simp at h
      · injection h with h
        subst h
        refine ⟨[_, _], by simp, ?_, rfl⟩
        intro n hn
        simp at hn
        rcases hn with rfl | rfl <;> rfl
  · split at h
    · simp at h
    · next l _ =>
      injection h with h
      subst h
      exact ⟨renderSuggestionMenuItemsList l, renderList_ne_nil l, renderList_spellOK l, rfl⟩

theorem spellingPart_ok (dict : String → Option String) (sc : Option Spellchecker)
    (params : InteractionContext) (S : List MenuNode)
    (h : spellingPart dict sc params = .ok S) :
    S = [] ∨ ∃ m, m ≠ [] ∧ (∀ n ∈ m, spellNodeOK n = true) ∧
      S = m ++ [MenuNode.separator] := by
  unfold spellingPart at h
  split at h
  · cases sc with
    | none => injection h with h; exact Or.inl h.symm
    | some s => exact Or.inr (spellingSection_ok _ _ _ _ h)
  · injection h with h
    exact Or.inl h.symm

theorem spellingPart_shape (dict : String → Option String) (sc : Option Spellchecker)
    (params : InteractionContext) (S : List MenuNode)
    (h : spellingPart dict sc params = .ok S) : SectionShape S := by
  rcases spellingPart_ok dict sc params S h with h0 | ⟨m, hm0, hmOK, rfl⟩
  · exact Or.inl h0
  · exact Or.inr ⟨m, hm0, fun n hn => (spellNodeOK_class n (hmOK n hn)).1, rfl⟩

theorem sectionShape_ite (c : Prop) [Decidable c] (l : List MenuNode)
    (h : SectionShape l) : SectionShape (if c then l else []) := by
  split
  · exact h
  · exact Or.inl rfl

theorem urlSection_shape (pd : Bool) (url : String) :
    SectionShape (urlSection pd url) := by
  cases pd with
  | false =>
    refine Or.inr ⟨[openLinkItem url, copyLinkAddressItem url], by simp, ?_, rfl⟩
    intro n hn
    simp at hn
    rcases hn with rfl | rfl <;> rfl
  | true =>
    refine Or.inr ⟨[openLinkItem url, openLinkInBackgroundItem url,
      copyLinkAddressItem url], by simp, ?_, rfl⟩
    intro n hn
    simp at hn
    rcases hn with rfl | rfl | rfl <;> rfl

theorem lookupSearchSection_shape (sc : Option Spellchecker)
    (params : InteractionContext) : SectionShape (lookupSearchSection sc params) := by
  unfold lookupSearchSection
  split
  · refine Or.inr ⟨[addToDictionaryItem (strOrEmpty params.misspelledWord),
      searchMenuItem (strOrEmpty params.selectionText)], by simp, ?_, rfl⟩
    intro n hn
    simp at hn
    rcases hn with rfl | rfl <;> rfl
  · refine Or.inr ⟨[searchMenuItem (strOrEmpty params.selectionText)], by simp, ?_, rfl⟩
    intro n hn
    simp at hn
    subst hn
    rfl

theorem undoRedoSection_shape (f : EditFlags) : SectionShape (undoRedoSection f) := by
  unfold undoRedoSection
  split
  · refine Or.inr ⟨[.item "Undo" f.canUndo none (some "undo"),
      .item "Redo" f.canRedo none (some "redo")], by simp, ?_, rfl⟩
    intro n hn
    simp at hn
    rcases hn with rfl | rfl <;> rfl
  · exact Or.inl rfl

theorem textEditingMenu_mem (f : EditFlags) (n : MenuNode)
    (hn : n ∈ textEditingMenu f) :
    n = cutItem ∨ n = copyItem ∨ n = pasteItem ∨ n = pasteMatchItem ∨
      n = selectAllItem := by
  unfold textEditingMenu at hn
  rw [List.mem_filterMap] at hn
  obtain ⟨a, ha, haid⟩ := hn
  simp only [id_eq] at haid
  subst haid
  simp only [List.mem_cons, List.not_mem_nil, or_false] at ha
  rcases ha with h | h | h | h | h <;>
    (split at h
     · injection h with h
       subst h
       tauto
     · cases h)

theorem textEditingMenu_not_sep (f : EditFlags) :
    ∀ n ∈ textEditingMenu f, isSep n = false := by
  intro n hn
  rcases textEditingMenu_mem f n hn with rfl | rfl | rfl | rfl | rfl <;> rfl

theorem textEditingSection_shape (f : EditFlags) :
    SectionShape (textEditingSection f) := by
  unfold textEditingSection
  split
  · next hlen =>
    exact Or.inr ⟨textEditingMenu f, by simpa using hlen, textEditingMenu_not_sep f, rfl⟩
  · exact Or.inl rfl

theorem currentPageSection_shape (cfg : FeatureConfig) :
    SectionShape (currentPageSection cfg) := by
  obtain ⟨b1, b2⟩ := cfg
  cases b1 <;> cases b2
  · exact Or.inl rfl
  · refine Or.inr ⟨[openPageInBrowserItem], by simp, ?_, rfl⟩
    intro n hn; simp at hn; subst hn; rfl
  · refine Or.inr ⟨[copyCurrentUrlItem], by simp, ?_, rfl⟩
    intro n hn; simp at hn; subst hn; rfl
  · refine Or.inr ⟨[copyCurrentUrlItem, openPageInBrowserItem], by simp, ?_, rfl⟩
    intro n hn; simp at hn; rcases hn with rfl | rfl <;> rfl

theorem waveboxSection_good (params : InteractionContext) :
    GoodShape (waveboxSection params) := by
  refine goodShape_tail _ (by simp [waveboxSection]) ?_
  intro n hn
  simp [waveboxSection] at hn
  rcases hn with rfl | rfl <;> rfl

/-! ## Decomposition of launchMenu -/

theorem launchMenu_eq_ok (pd : Bool) (dict : String → Option String)
    (sc : Option Spellchecker) (cfg : FeatureConfig) (params : InteractionContext)
    (S : List MenuNode) (hS : spellingPart dict sc params = .ok S) :
    launchMenu pd dict sc cfg params =
      .ok (S ++
        ((if truthyStr params.linkURL then urlSection pd (strOrEmpty params.linkURL)
          else []) ++
         ((if truthyStr params.selectionText then lookupSearchSection sc params
           else []) ++
          (undoRedoSection params.editFlags ++
           (textEditingSection params.editFlags ++
            (currentPageSection cfg ++ waveboxSection params)))))) := by
  unfold launchMenu
  rw [hS]

theorem launchMenu_ok (pd : Bool) (dict : String → Option String)
    (sc : Option Spellchecker) (cfg : FeatureConfig) (params : InteractionContext)
    (t : List MenuNode) (h : launchMenu pd dict sc cfg params = .ok t) :
    ∃ S, spellingPart dict sc params = .ok S ∧
      t = S ++
        ((if truthyStr params.linkURL then urlSection pd (strOrEmpty params.linkURL)
          else []) ++
         ((if truthyStr params.selectionText then lookupSearchSection sc params
           else []) ++
          (undoRedoSection params.editFlags ++
           (textEditingSection params.editFlags ++
            (currentPageSection cfg ++ waveboxSection params))))) := by
  cases hS : spellingPart dict sc params with
  | error e => rw [launchMenu, hS] at h; simp at h
  | ok S =>
    rw [launchMenu_eq_ok pd dict sc cfg params S hS] at h
    simp at h
    exact ⟨S, rfl, h.symm⟩

/-! ## Claim C2 -/

/-- Claim C2: for every interaction context, feature config and spellchecker
capability, a template produced by launchMenu never contains two adjacent
separator nodes and neither begins nor ends with a separator; each section
contributes its trailing separator only after at least one non-separator
node, and the final application section never contributes one. -/
theorem menu_separator_invariant (pd : Bool) (dict : String → Option String)
    (sc : Option Spellchecker) (cfg : FeatureConfig) (params : InteractionContext)
    (t : List MenuNode) (h : launchMenu pd dict sc cfg params = .ok t) :
    sepInvariant t = true := by
  obtain ⟨S, hS, rfl⟩ := launchMenu_ok pd dict sc cfg params t h
  apply goodShape_sepInvariant
  apply goodShape_append _ _ (spellingPart_shape dict sc params S hS)
  apply goodShape_append _ _ (sectionShape_ite _ _ (urlSection_shape pd _))
  apply goodShape_append _ _ (sectionShape_ite _ _ (lookupSearchSection_shape sc params))
  apply goodShape_append _ _ (undoRedoSection_shape params.editFlags)
  apply goodShape_append _ _ (textEditingSection_shape params.editFlags)
  apply goodShape_append _ _ (currentPageSection_shape cfg)
  exact waveboxSection_good params

/-- A spellchecker returning both a primary and a secondary language, used by
concrete instantiations. -/
def scBoth : Spellchecker :=
  { hasSpellchecker := true,
    suggestions := fun _ =>
      { primary := some { language := "en", suggestions := some ["the", "ten"] },
        secondary := some { language := "fr", suggestions := some [] } } }

/-- A context exercising every section at once. -/
def ctxFull : InteractionContext :=
  { isEditable := true, misspelledWord := some "teh", selectionText := some "hello",
    linkURL := some "https://x",
    editFlags := { canUndo := true, canRedo := false, canCut := true,
                   canCopy := true, canPaste := true, canSelectAll := true },
    x := 1, y := 2 }

/-- Witness for claim C2 at a concrete input covering every section. -/
theorem menu_separator_invariant_witness :
    sepInvariant
      [ .submenu "English" [suggestionItem "the", suggestionItem "ten"],
        .submenu "English" [noSuggestionsItem],
        .separator,
        openLinkItem "https://x", openLinkInBackgroundItem "https://x",
        copyLinkAddressItem "https://x", .separator,
        addToDictionaryItem "teh", searchMenuItem "hello", .separator,
        .item "Undo" true none (some "undo"), .item "Redo" false none (some "redo"),
        .separator,
        cutItem, copyItem, pasteItem, pasteMatchItem, selectAllItem, .separator,
        copyCurrentUrlItem, openPageInBrowserItem, .separator,
        waveboxSettingsItem, inspectItem 1 2 ] = true :=
  menu_separator_invariant true (fun _ => some "English") (some scBoth)
    ⟨true, true⟩ ctxFull _ rfl

/-! ## Claim C4 -/

/-- Claim C4: the suggestion renderer is total over actual string sequences:
for the empty sequence it yields exactly the one disabled placeholder, and
for a non-empty sequence it yields one enabled item per suggestion, in input
order, bound to the replace-misspelling action for that suggestion. -/
theorem renderSuggestions_total (ss : List String) :
    renderSuggestionMenuItems (some ss) = .ok (renderSuggestionMenuItemsList ss) ∧
    (ss = [] → renderSuggestionMenuItemsList ss =
      [.item "No Spelling Suggestions" false none none]) ∧
    (ss ≠ [] → renderSuggestionMenuItemsList ss =
      ss.map (fun s => .item s true (some (.replaceMisspelling s)) none)) := by
  refine ⟨rfl, ?_, ?_⟩
  · rintro rfl
    rfl
  · intro h
    rw [renderList_eq_map ss h]
    rfl

/-- Witness for claim C4 at the empty list and at a two-element list. -/
theorem renderSuggestions_total_witness :
    renderSuggestionMenuItemsList [] =
      [.item "No Spelling Suggestions" false none none] ∧
    renderSuggestionMenuItemsList ["the", "ten"] =
      ["the", "ten"].map (fun s => .item s true (some (.replaceMisspelling s)) none) :=
  ⟨(renderSuggestions_total []).2.1 rfl,
   (renderSuggestions_total ["the", "ten"]).2.2 (by simp)⟩

/-! ## Claim C5 -/

/-- The context of spec scenario B. -/
def ctxScenarioB : InteractionContext :=
  { isEditable := true, misspelledWord := some "teh", selectionText := none,
    linkURL := none,
    editFlags := { canUndo := true, canRedo := false, canCut := false,
                   canCopy := false, canPaste := false, canSelectAll := false },
    x := 0, y := 0 }

/-- A spellchecker returning only a primary language with two suggestions. -/
def scPrimaryOnly : Spellchecker :=
  { hasSpellchecker := true,
    suggestions := fun _ =>
      { primary := some { language := "en", suggestions := some ["the", "ten"] },
        secondary := none } }

/-- Claim C5: scenario B produces exactly the flattened template with the two
suggestion items (no submenu wrapper), a separator, Undo enabled and Redo
disabled, a separator, and the fixed application items, on any platform and
with any language-name dictionary. -/
theorem scenarioB_template (pd : Bool) (dict : String → Option String) :
    launchMenu pd dict (some scPrimaryOnly) defaultConfig ctxScenarioB =
      .ok [.item "the" true (some (.replaceMisspelling "the")) none,
           .item "ten" true (some (.replaceMisspelling "ten")) none,
           .separator,
           .item "Undo" true none (some "undo"),
           .item "Redo" false none (some "redo"),
           .separator,
           waveboxSettingsItem, inspectItem 0 0] := rfl

/-! ## Claim C1 -/

/-- A context passing the spelling gate with everything else absent. -/
def ctxMisspell : InteractionContext :=
  { isEditable := true, misspelledWord := some "teh", selectionText := none,
    linkURL := none,
    editFlags := { canUndo := false, canRedo := false, canCut := false,
                   canCopy := false, canPaste := false, canSelectAll := false },
    x := 0, y := 0 }

/-- Spellchecker returning only a secondary language. -/
def scSecondaryOnly : Spellchecker :=
  { hasSpellchecker := true,
    suggestions := fun _ =>
      { primary := none,
        secondary := some { language := "en", suggestions := some ["the"] } } }

/-- Spellchecker returning neither language. -/
def scNoLanguages : Spellchecker :=
  { hasSpellchecker := true,
    suggestions := fun _ => { primary := none, secondary := none } }

/-- Spellchecker returning a primary whose suggestion list is null and no
secondary. -/
def scPrimaryNullList : Spellchecker :=
  { hasSpellchecker := true,
    suggestions := fun _ =>
      { primary := some { language := "en", suggestions := none },
        secondary := none } }

/-- Claim C1 evaluated on the code: in the single-language branch the source
reads suggestions.primary.suggestions unconditionally, so with the gate
satisfied a null primary (secondary present or not), or a primary whose list
is null with a null secondary, raises a TypeError instead of degrading to the
other list or the empty list. -/
theorem spelling_fallback_throws :
    launchMenu false (fun _ => none) (some scSecondaryOnly) defaultConfig ctxMisspell =
      .error (.typeError "Cannot read property suggestions of null") ∧
    launchMenu false (fun _ => none) (some scNoLanguages) defaultConfig ctxMisspell =
      .error (.typeError "Cannot read property suggestions of null") ∧
    launchMenu false (fun _ => none) (some scPrimaryNullList) defaultConfig ctxMisspell =
      .error (.typeError "Cannot read property suggestions of null") :=
  ⟨rfl, rfl, rfl⟩

/-! ## Claim C6 -/

/-- Claim C6: a spellchecker whose hasSpellchecker is false yields exactly
the template produced with no spellchecker at all, for every context, config,
platform and dictionary. -/
theorem spellchecker_without_capability_ignored (pd : Bool)
    (dict : String → Option String) (cfg : FeatureConfig)
    (params : InteractionContext) (s : Spellchecker)
    (h : s.hasSpellchecker = false) :
    launchMenu pd dict (some s) cfg params = launchMenu pd dict none cfg params := by
  simp [launchMenu, spellingPart, lookupSearchSection, spellGate, h]

/-- A configured spellchecker without the capability. -/
def scOff : Spellchecker :=
  { hasSpellchecker := false,
    suggestions := fun _ => { primary := none, secondary := none } }

/-- Witness for claim C6 at a concrete context exercising every section. -/
theorem spellchecker_without_capability_ignored_witness :
    launchMenu false (fun _ => none) (some scOff) defaultConfig ctxFull =
      launchMenu false (fun _ => none) none defaultConfig ctxFull :=
  spellchecker_without_capability_ignored false (fun _ => none) defaultConfig
    ctxFull scOff rfl

/-! ## Claim C9 -/

/-- Claim C9: an empty (non-null) misspelledWord is treated exactly as an
absent one, because the gate tests JavaScript truthiness: both the spelling
section and the add-to-dictionary item are governed by that same gate. -/
theorem empty_misspelled_word_ignored (pd : Bool) (dict : String → Option String)
    (sc : Option Spellchecker) (cfg : FeatureConfig) (params : InteractionContext)
    (h : params.misspelledWord = some "") :
    launchMenu pd dict sc cfg params =
      launchMenu pd dict sc cfg { params with misspelledWord := none } := by
  obtain ⟨ie, mw, sel, url, ef, x, y⟩ := params
  change mw = some "" at h
  subst h
  simp [launchMenu, spellingPart, lookupSearchSection, spellGate, truthyStr,
    waveboxSection]

/-- Witness for claim C9: the full context with the misspelled word made
empty. -/
theorem empty_misspelled_word_ignored_witness :
    launchMenu true (fun _ => none) (some scBoth) defaultConfig
        { ctxFull with misspelledWord := some "" } =
      launchMenu true (fun _ => none) (some scBoth) defaultConfig
        { { ctxFull with misspelledWord := some "" } with misspelledWord := none } :=
  empty_misspelled_word_ignored true (fun _ => none) (some scBoth) defaultConfig
    { ctxFull with misspelledWord := some "" } rfl

/-! ## Claim C10 -/

theorem currentPageSection_both (cfg : FeatureConfig)
    (h1 : cfg.copyCurrentPageUrlOption = true)
    (h2 : cfg.openCurrentPageInBrowserOption = true) :
    currentPageSection cfg =
      [copyCurrentUrlItem, openPageInBrowserItem, MenuNode.separator] := by
  unfold currentPageSection
  rw [h1, h2]
  simp

/-- Claim C10: with both feature flags enabled, the current-page section
contributes exactly the two items Copy current URL then Open page in Browser,
followed by one shared separator, immediately before the fixed application
section. -/
theorem currentPage_section_items (pd : Bool) (dict : String → Option String)
    (sc : Option Spellchecker) (cfg : FeatureConfig) (params : InteractionContext)
    (t : List MenuNode) (h1 : cfg.copyCurrentPageUrlOption = true)
    (h2 : cfg.openCurrentPageInBrowserOption = true)
    (h : launchMenu pd dict sc cfg params = .ok t) :
    ∃ A, t = A ++ [copyCurrentUrlItem, openPageInBrowserItem, MenuNode.separator,
                   waveboxSettingsItem, inspectItem params.x params.y] := by
  obtain ⟨S, hS, rfl⟩ := launchMenu_ok pd dict sc cfg params t h
  refine ⟨S ++
    ((if truthyStr params.linkURL then urlSection pd (strOrEmpty params.linkURL)
      else []) ++
     ((if truthyStr params.selectionText then lookupSearchSection sc params
       else []) ++
      (undoRedoSection params.editFlags ++ textEditingSection params.editFlags))), ?_⟩
  rw [currentPageSection_both cfg h1 h2]
  simp [waveboxSection, List.append_assoc]

/-- Witness for claim C10 at the concrete full-menu input. -/
theorem currentPage_section_items_witness :
    ∃ A,
      [ MenuNode.submenu "English" [suggestionItem "the", suggestionItem "ten"],
        MenuNode.submenu "English" [noSuggestionsItem],
        MenuNode.separator,
        openLinkItem "https://x", openLinkInBackgroundItem "https://x",
        copyLinkAddressItem "https://x", MenuNode.separator,
        addToDictionaryItem "teh", searchMenuItem "hello", MenuNode.separator,
        MenuNode.item "Undo" true none (some "undo"),
        MenuNode.item "Redo" false none (some "redo"),
        MenuNode.separator,
        cutItem, copyItem, pasteItem, pasteMatchItem, selectAllItem,
        MenuNode.separator,
        copyCurrentUrlItem, openPageInBrowserItem, MenuNode.separator,
        waveboxSettingsItem, inspectItem 1 2 ] =
      A ++ [copyCurrentUrlItem, openPageInBrowserItem, MenuNode.separator,
            waveboxSettingsItem, inspectItem 1 2] :=
  currentPage_section_items true (fun _ => some "English") (some scBoth)
    ⟨true, true⟩ ctxFull _ rfl rfl rfl

/-! ## Claim C3 -/

/-- Claim C3: for a selection of length at least 50 the search-item label
shows exactly the first 47 characters followed by one ellipsis marker, while
the bound action still opens the search URL with the full selection
percent-encoded; shorter selections are shown unmodified. -/
theorem search_label_truncation (sel : String) :
    (50 ≤ sel.length →
      (displayText sel).data = sel.data.take 47 ++ ['…'] ∧
      (sel.data.take 47).length = 47 ∧
      searchMenuItem sel =
        .item ("Search Google for “" ++ (displayText sel ++ "”")) true
          (some (.openExternal
            ("https://google.com/search?q=" ++ encodeURIComponent sel)))
          none) ∧
    (sel.length < 50 →
      displayText sel = sel ∧
      searchMenuItem sel =
        .item ("Search Google for “" ++ (sel ++ "”")) true
          (some (.openExternal
            ("https://google.com/search?q=" ++ encodeURIComponent sel)))
          none) := by
  constructor
  · intro h
    refine ⟨?_, ?_, rfl⟩
    · unfold displayText
      rw [if_pos h]
      unfold substrText
      show (((sel.data.drop 0).take 47) ++ "…".data : List Char) = _
      rw [List.drop_zero]
    · rw [List.length_take]
      have hl : sel.data.length = sel.length := rfl
      omega
  · intro h
    have hd : displayText sel = sel := by
      unfold displayText
      rw [if_neg (by omega)]
    exact ⟨hd, by simp only [searchMenuItem, hd]⟩

/-- A 50-character selection text. -/
def selFifty : String := "aaaaaaaaaabbbbbbbbbbccccccccccddddddddddeeeeeeeeee"

/-- Witness for claim C3 at a 50-character selection. -/
theorem search_label_truncation_witness :
    (displayText selFifty).data = selFifty.data.take 47 ++ ['…'] ∧
    (selFifty.data.take 47).length = 47 ∧
    searchMenuItem selFifty =
      .item ("Search Google for “" ++ (displayText selFifty ++ "”")) true
        (some (.openExternal
          ("https://google.com/search?q=" ++ encodeURIComponent selFifty)))
        none :=
  (search_label_truncation selFifty).1 (by decide)

/-! ## Claim C7 -/

theorem mem_ite_nil {c : Prop} [Decidable c] {l : List MenuNode}
    {P : MenuNode → Prop} (h : ∀ n ∈ l, P n) :
    ∀ n ∈ (if c then l else []), P n := by
  split
  · exact h
  · simp

theorem not_link_of_click_none (lb : String) (en : Bool) (rl : Option String) :
    isLinkSectionNode (.item lb en none rl) = false := by
  simp [isLinkSectionNode, linkActionShape]

theorem searchLabel_head (d : String) :
    ("Search Google for “" ++ (d ++ "”")).data.head? = some 'S' := rfl

theorem searchLabel_ne (d : String) (x : String)
    (hx : x.data.head? ≠ some 'S') :
    ("Search Google for “" ++ (d ++ "”")) ≠ x := by
  intro h
  exact hx (h ▸ searchLabel_head d)

theorem searchItem_not_link (sel : String) :
    isLinkSectionNode (searchMenuItem sel) = false := by
  have h1 := searchLabel_ne (displayText sel) "Open Link" (by decide)
  have h2 := searchLabel_ne (displayText sel) "Open Link in Background" (by decide)
  have h3 := searchLabel_ne (displayText sel) "Copy link Address" (by decide)
  simp [searchMenuItem, isLinkSectionNode, linkActionShape, h1, h2, h3]

theorem spellingPart_not_link (dict : String → Option String)
    (sc : Option Spellchecker) (params : InteractionContext) (S : List MenuNode)
    (h : spellingPart dict sc params = .ok S) :
    ∀ n ∈ S, isLinkSectionNode n = false := by
  intro n hn
  rcases spellingPart_ok dict sc params S h with rfl | ⟨m, _, hOK, rfl⟩
  · simp at hn
  · rcases List.mem_append.mp hn with hm | hsep
    · exact (spellNodeOK_class n (hOK n hm)).2.1
    · simp at hsep
      subst hsep
      rfl

theorem lookupSearchSection_not_link (sc : Option Spellchecker)
    (params : InteractionContext) :
    ∀ n ∈ lookupSearchSection sc params, isLinkSectionNode n = false := by
  intro n hn
  unfold lookupSearchSection at hn
  rcases List.mem_append.mp hn with hadd | hrest
  · split at hadd
    · simp at hadd
      subst hadd
      simp [addToDictionaryItem, isLinkSectionNode, linkActionShape]
    · simp at hadd
  · simp at hrest
    rcases hrest with rfl | rfl
    · exact searchItem_not_link _
    · rfl

theorem undoRedoSection_not_link (f : EditFlags) :
    ∀ n ∈ undoRedoSection f, isLinkSectionNode n = false := by
  intro n hn
  unfold undoRedoSection at hn
  split at hn
  · simp at hn
    rcases hn with rfl | rfl | rfl
    · exact not_link_of_click_none _ _ _
    · exact not_link_of_click_none _ _ _
    · rfl
  · simp at hn

theorem textEditingSection_not_link (f : EditFlags) :
    ∀ n ∈ textEditingSection f, isLinkSectionNode n = false := by
  intro n hn
  unfold textEditingSection at hn
  split at hn
  · rcases List.mem_append.mp hn with hm | hs
    · rcases textEditingMenu_mem f n hm with rfl | rfl | rfl | rfl | rfl <;> decide
    · simp at hs
      subst hs
      rfl
  · simp at hn

theorem currentPageSection_not_link (cfg : FeatureConfig) :
    ∀ n ∈ currentPageSection cfg, isLinkSectionNode n = false := by
  obtain ⟨b1, b2⟩ := cfg
  cases b1 <;> cases b2 <;> decide

theorem waveboxSection_not_link (params : InteractionContext) :
    ∀ n ∈ waveboxSection params, isLinkSectionNode n = false := by
  intro n hn
  simp [waveboxSection] at hn
  rcases hn with rfl | rfl
  · decide
  · rfl

theorem urlSection_has_link (pd : Bool) (url : String) :
    (urlSection pd url).any isLinkSectionNode = true := by
  cases pd <;> rfl

/-- A context whose linkURL is the empty string: non-null but falsy. -/
def ctxEmptyLink : InteractionContext :=
  { isEditable := false, misspelledWord := none, selectionText := none,
    linkURL := some "",
    editFlags := { canUndo := false, canRedo := false, canCut := false,
                   canCopy := false, canPaste := false, canSelectAll := false },
    x := 0, y := 0 }

/-- Counterexample to claim C7 as stated: with linkURL equal to the empty
string the link URL is non-null, yet the produced template contains no
link-section item, because the gate tests JavaScript truthiness rather than
null-ness. -/
theorem link_items_iff_nonnull_counterexample :
    ctxEmptyLink.linkURL ≠ none ∧
    launchMenu false (fun _ => none) none defaultConfig ctxEmptyLink =
      .ok [waveboxSettingsItem, inspectItem 0 0] ∧
    ([waveboxSettingsItem, inspectItem 0 0].any isLinkSectionNode) = false :=
  ⟨by decide, rfl, by decide⟩

/-- Claim C7 amended: the link-section items appear in the produced template
exactly when linkURL is truthy, that is non-null and non-empty; in particular
a null or empty linkURL yields no link-section items. -/
theorem link_items_iff_truthy (pd : Bool) (dict : String → Option String)
    (sc : Option Spellchecker) (cfg : FeatureConfig) (params : InteractionContext)
    (t : List MenuNode) (h : launchMenu pd dict sc cfg params = .ok t) :
    t.any isLinkSectionNode = truthyStr params.linkURL := by
  obtain ⟨S, hS, rfl⟩ := launchMenu_ok pd dict sc cfg params t h
  rw [List.any_append, List.any_append, List.any_append, List.any_append,
    List.any_append, List.any_append]
  have hSp : S.any isLinkSectionNode = false :=
    List.any_eq_false.mpr (fun n hn => by
      rw [spellingPart_not_link dict sc params S hS n hn]; exact Bool.false_ne_true)
  have hSe : (if truthyStr params.selectionText then lookupSearchSection sc params
      else []).any isLinkSectionNode = false :=
    List.any_eq_false.mpr (fun n hn => by
      rw [mem_ite_nil (lookupSearchSection_not_link sc params) n hn]
      exact Bool.false_ne_true)
  have hUR : (undoRedoSection params.editFlags).any isLinkSectionNode = false :=
    List.any_eq_false.mpr (fun n hn => by
      rw [undoRedoSection_not_link params.editFlags n hn]; exact Bool.false_ne_true)
  have hTE : (textEditingSection params.editFlags).any isLinkSectionNode = false :=
    List.any_eq_false.mpr (fun n hn => by
      rw [textEditingSection_not_link params.editFlags n hn]; exact Bool.false_ne_true)
  have hP : (currentPageSection cfg).any isLinkSectionNode = false :=
    List.any_eq_false.mpr (fun n hn => by
      rw [currentPageSection_not_link cfg n hn]; exact Bool.false_ne_true)
  have hW : (waveboxSection params).any isLinkSectionNode = false :=
    List.any_eq_false.mpr (fun n hn => by
      rw [waveboxSection_not_link params n hn]; exact Bool.false_ne_true)
  rw [hSp, hSe, hUR, hTE, hP, hW]
  cases hurl : truthyStr params.linkURL
  · simp
  · simp [urlSection_has_link pd]

/-- Witness for the amended claim C7 at the concrete full-menu input, whose
linkURL is truthy. -/
theorem link_items_iff_truthy_witness :
    ([ MenuNode.submenu "English" [suggestionItem "the", suggestionItem "ten"],
       MenuNode.submenu "English" [noSuggestionsItem],
       MenuNode.separator,
       openLinkItem "https://x", openLinkInBackgroundItem "https://x",
       copyLinkAddressItem "https://x", MenuNode.separator,
       addToDictionaryItem "teh", searchMenuItem "hello", MenuNode.separator,
       MenuNode.item "Undo" true none (some "undo"),
       MenuNode.item "Redo" false none (some "redo"),
       MenuNode.separator,
       cutItem, copyItem, pasteItem, pasteMatchItem, selectAllItem,
       MenuNode.separator,
       copyCurrentUrlItem, openPageInBrowserItem, MenuNode.separator,
       waveboxSettingsItem, inspectItem 1 2 ].any isLinkSectionNode) =
      truthyStr ctxFull.linkURL :=
  link_items_iff_truthy true (fun _ => some "English") (some scBoth)
    ⟨true, true⟩ ctxFull _ rfl

/-! ## Claim C8 -/

/-- The same context with editFlags.canPaste turned off. -/
def withCanPasteFalse (params : InteractionContext) : InteractionContext :=
  { params with editFlags := { params.editFlags with canPaste := false } }

theorem spellingPart_not_paste (dict : String → Option String)
    (sc : Option Spellchecker) (params : InteractionContext) (S : List MenuNode)
    (h : spellingPart dict sc params = .ok S) :
    ∀ n ∈ S, isPasteNode n = false := by
  intro n hn
  rcases spellingPart_ok dict sc params S h with rfl | ⟨m, _, hOK, rfl⟩
  · simp at hn
  · rcases List.mem_append.mp hn with hm | hsep
    · exact (spellNodeOK_class n (hOK n hm)).2.2
    · simp at hsep
      subst hsep
      rfl

theorem urlSection_not_paste (pd : Bool) (url : String) :
    ∀ n ∈ urlSection pd url, isPasteNode n = false := by
  intro n hn
  cases pd
  · simp [urlSection] at hn
    rcases hn with rfl | rfl | rfl <;> rfl
  · simp [urlSection] at hn
    rcases hn with rfl | rfl | rfl | rfl <;> rfl

theorem lookupSearchSection_not_paste (sc : Option Spellchecker)
    (params : InteractionContext) :
    ∀ n ∈ lookupSearchSection sc params, isPasteNode n = false := by
  intro n hn
  unfold lookupSearchSection at hn
  rcases List.mem_append.mp hn with hadd | hrest
  · split at hadd
    · simp at hadd
      subst hadd
      rfl
    · simp at hadd
  · simp at hrest
    rcases hrest with rfl | rfl <;> rfl

theorem undoRedoSection_not_paste (f : EditFlags) :
    ∀ n ∈ undoRedoSection f, isPasteNode n = false := by
  intro n hn
  unfold undoRedoSection at hn
  split at hn
  · simp at hn
    rcases hn with rfl | rfl | rfl
    · cases f.canUndo <;> decide
    · cases f.canRedo <;> decide
    · rfl
  · simp at hn

theorem currentPageSection_not_paste (cfg : FeatureConfig) :
    ∀ n ∈ currentPageSection cfg, isPasteNode n = false := by
  obtain ⟨b1, b2⟩ := cfg
  cases b1 <;> cases b2 <;> decide

theorem waveboxSection_not_paste (params : InteractionContext) :
    ∀ n ∈ waveboxSection params, isPasteNode n = false := by
  intro n hn
  simp [waveboxSection] at hn
  rcases hn with rfl | rfl <;> rfl

theorem filter_not_paste_id (l : List MenuNode)
    (h : ∀ n ∈ l, isPasteNode n = false) :
    l.filter (fun n => !isPasteNode n) = l :=
  List.filter_eq_self.mpr (fun a ha => by rw [h a ha]; rfl)

theorem countP_paste_zero (l : List MenuNode)
    (h : ∀ n ∈ l, isPasteNode n = false) :
    l.countP isPasteNode = 0 :=
  List.countP_eq_zero.mpr (fun a ha => by simp [h a ha])

theorem textEditingSection_paste_filter (f : EditFlags) (hp : f.canPaste = true)
    (hkeep : (f.canCut || f.canCopy || f.canSelectAll) = true) :
    (textEditingSection f).filter (fun n => !isPasteNode n) =
      textEditingSection { f with canPaste := false } := by
  obtain ⟨u, r, ct, cc, cp, csa⟩ := f
  change cp = true at hp
  subst hp
  cases ct <;> cases cc <;> cases csa <;> first | rfl | simp at hkeep

theorem textEditingSection_paste_all (f : EditFlags) (hp : f.canPaste = true)
    (hnone : (f.canCut || f.canCopy || f.canSelectAll) = false) :
    textEditingSection f = [pasteItem, pasteMatchItem, MenuNode.separator] ∧
    textEditingSection { f with canPaste := false } = [] := by
  obtain ⟨u, r, ct, cc, cp, csa⟩ := f
  change cp = true at hp
  subst hp
  cases ct <;> cases cc <;> cases csa <;> first | exact ⟨rfl, rfl⟩ | simp at hnone

theorem textEditingSection_paste_countP (f : EditFlags) (hp : f.canPaste = true) :
    (textEditingSection f).countP isPasteNode = 2 := by
  obtain ⟨u, r, ct, cc, cp, csa⟩ := f
  change cp = true at hp
  subst hp
  cases ct <;> cases cc <;> cases csa <;> rfl

/-- A context whose only enabled editing capability is paste. -/
def ctxPasteOnly : InteractionContext :=
  { isEditable := false, misspelledWord := none, selectionText := none,
    linkURL := none,
    editFlags := { canUndo := false, canRedo := false, canCut := false,
                   canCopy := false, canPaste := true, canSelectAll := false },
    x := 0, y := 0 }

/-- Counterexample to claim C8 as stated: when paste is the only enabled
text-editing capability, toggling canPaste off also removes the
text-editing separator, so the new template is not the old one minus exactly
the two paste items. -/
theorem paste_toggle_exact_counterexample :
    launchMenu false (fun _ => none) none defaultConfig ctxPasteOnly =
      .ok [pasteItem, pasteMatchItem, MenuNode.separator, waveboxSettingsItem,
           inspectItem 0 0] ∧
    launchMenu false (fun _ => none) none defaultConfig
        (withCanPasteFalse ctxPasteOnly) =
      .ok [waveboxSettingsItem, inspectItem 0 0] ∧
    [waveboxSettingsItem, inspectItem 0 0] ≠
      [pasteItem, pasteMatchItem, MenuNode.separator, waveboxSettingsItem,
        inspectItem 0 0].filter (fun n => !isPasteNode n) :=
  ⟨rfl, rfl, fun hcontra => absurd (congrArg List.length hcontra) (by decide)⟩

/-- Claim C8 amended: toggling editFlags.canPaste from true to false removes
exactly the items Paste and Paste and match style and changes nothing else,
provided another text-editing item (Cut, Copy or Select all) remains; when
paste was the only text-editing capability, the trailing separator of the
text-editing section disappears with the two items, and nothing else
changes. -/
theorem paste_toggle_frame (pd : Bool) (dict : String → Option String)
    (sc : Option Spellchecker) (cfg : FeatureConfig) (params : InteractionContext)
    (t : List MenuNode) (hp : params.editFlags.canPaste = true)
    (h : launchMenu pd dict sc cfg params = .ok t) :
    ((params.editFlags.canCut || params.editFlags.canCopy ||
        params.editFlags.canSelectAll) = true →
      launchMenu pd dict sc cfg (withCanPasteFalse params) =
        .ok (t.filter (fun n => !isPasteNode n)) ∧
      t.countP isPasteNode = 2) ∧
    ((params.editFlags.canCut || params.editFlags.canCopy ||
        params.editFlags.canSelectAll) = false →
      ∃ A B, t = A ++ pasteItem :: pasteMatchItem :: MenuNode.separator :: B ∧
        launchMenu pd dict sc cfg (withCanPasteFalse params) = .ok (A ++ B)) := by
  obtain ⟨S, hS, rfl⟩ := launchMenu_ok pd dict sc cfg params t h
  have hS' : spellingPart dict sc (withCanPasteFalse params) = .ok S := hS
  have hLM' := launchMenu_eq_ok pd dict sc cfg (withCanPasteFalse params) S hS'
  constructor
  · intro hkeep
    constructor
    · rw [hLM']
      congr 1
      rw [List.filter_append, List.filter_append, List.filter_append,
        List.filter_append, List.filter_append, List.filter_append]
      rw [filter_not_paste_id S (spellingPart_not_paste dict sc params S hS),
        filter_not_paste_id _ (mem_ite_nil (urlSection_not_paste pd _)),
        filter_not_paste_id _ (mem_ite_nil (lookupSearchSection_not_paste sc params)),
        filter_not_paste_id _ (undoRedoSection_not_paste params.editFlags),
        filter_not_paste_id _ (currentPageSection_not_paste cfg),
        filter_not_paste_id _ (waveboxSection_not_paste params),
        textEditingSection_paste_filter params.editFlags hp hkeep]
      rfl
    · rw [List.countP_append, List.countP_append, List.countP_append,
        List.countP_append, List.countP_append, List.countP_append]
      rw [countP_paste_zero S (spellingPart_not_paste dict sc params S hS),
        countP_paste_zero _ (mem_ite_nil (urlSection_not_paste pd _)),
        countP_paste_zero _ (mem_ite_nil (lookupSearchSection_not_paste sc params)),
        countP_paste_zero _ (undoRedoSection_not_paste params.editFlags),
        countP_paste_zero _ (currentPageSection_not_paste cfg),
        countP_paste_zero _ (waveboxSection_not_paste params),
        textEditingSection_paste_countP params.editFlags hp]
  · intro hnone
    obtain ⟨hTE, hTE'⟩ := textEditingSection_paste_all params.editFlags hp hnone
    refine ⟨S ++
      ((if truthyStr params.linkURL then urlSection pd (strOrEmpty params.linkURL)
        else []) ++
       ((if truthyStr params.selectionText then lookupSearchSection sc params
         else []) ++
        undoRedoSection params.editFlags)),
      currentPageSection cfg ++ waveboxSection params, ?_, ?_⟩
    · rw [hTE]
      simp [List.append_assoc]
    · rw [hLM']
      rw [show textEditingSection (withCanPasteFalse params).editFlags = []
        from hTE']
      simp [List.append_assoc]
      rfl

/-- Witness for the amended claim C8 at the concrete full-menu input, where
Cut, Copy and Select all remain enabled. -/
theorem paste_toggle_frame_witness :
    launchMenu true (fun _ => some "English") (some scBoth) ⟨true, true⟩
        (withCanPasteFalse ctxFull) =
      .ok ([ MenuNode.submenu "English" [suggestionItem "the", suggestionItem "ten"],
             MenuNode.submenu "English" [noSuggestionsItem],
             MenuNode.separator,
             openLinkItem "https://x", openLinkInBackgroundItem "https://x",
             copyLinkAddressItem "https://x", MenuNode.separator,
             addToDictionaryItem "teh", searchMenuItem "hello", MenuNode.separator,
             MenuNode.item "Undo" true none (some "undo"),
             MenuNode.item "Redo" false none (some "redo"),
             MenuNode.separator,
             cutItem, copyItem, pasteItem, pasteMatchItem, selectAllItem,
             MenuNode.separator,
             copyCurrentUrlItem, openPageInBrowserItem, MenuNode.separator,
             waveboxSettingsItem, inspectItem 1 2 ].filter
               (fun n => !isPasteNode n)) ∧
    [ MenuNode.submenu "English" [suggestionItem "the", suggestionItem "ten"],
      MenuNode.submenu "English" [noSuggestionsItem],
      MenuNode.separator,
      openLinkItem "https://x", openLinkInBackgroundItem "https://x",
      copyLinkAddressItem "https://x", MenuNode.separator,
      addToDictionaryItem "teh", searchMenuItem "hello", MenuNode.separator,
      MenuNode.item "Undo" true none (some "undo"),
      MenuNode.item "Redo" false none (some "redo"),
      MenuNode.separator,
      cutItem, copyItem, pasteItem, pasteMatchItem, selectAllItem,
      MenuNode.separator,
      copyCurrentUrlItem, openPageInBrowserItem, MenuNode.separator,
      waveboxSettingsItem, inspectItem 1 2 ].countP isPasteNode = 2 :=
  (paste_toggle_frame true (fun _ => some "English") (some scBoth) ⟨true, true⟩
    ctxFull _ rfl rfl).1 rfl
